import Mathlib

/-!
Shallow embedding of the Pangolin control-plane reconciler:
the DNS-authority reconciler, the auth-proxy reconciler, the health-status
ingestor, the Olm sync bootstrap and the session-validation endpoint,
together with proofs of the specified properties.

Database tables are embedded as association lists; `SELECT ... LIMIT 1`
becomes `List.find?`, inner joins become `find?`-based lookups on foreign
keys, and left joins produce `Option`-valued columns.  JavaScript
truthiness on nullable string columns (`null` and `""` are both falsy)
is made explicit via `jsTruthyStr`, and `a || b` on nullable numbers and
strings via `jsOrNat` / `jsOrStr`.
-/

namespace Pangolin

/-- Truthiness of a nullable JS string: `null`/`undefined` and `""` are falsy. -/
def jsTruthyStr (o : Option String) : Bool :=
  match o with
  | none => false
  | some s => !(s == "")

/-- JS `x || d` on a nullable number column (`null` and `0` are falsy). -/
def jsOrNat (x : Option Nat) (d : Nat) : Nat :=
  match x with
  | none => d
  | some v => if v == 0 then d else v

/-- JS `x || d` on a nullable string column (`null` and `""` are falsy). -/
def jsOrStr (x : Option String) (d : String) : String :=
  match x with
  | none => d
  | some s => if s == "" then d else s

/-- Append an element to an accumulator unless already present; models
insertion into a JS `Set` (which preserves first-insertion order). -/
def insertUnique [BEq α] (xs : List α) (x : α) : List α :=
  if xs.contains x then xs else xs ++ [x]

/-- Deduplicate a list keeping the first occurrence of each element, the
iteration order of `Array.from(new Set(list))` in JS. -/
def dedupFirst [BEq α] (xs : List α) : List α :=
  xs.foldl insertUnique []

/-- Decimal digit value of a character, if it is a digit. -/
def decDigitVal (c : Char) : Option Nat :=
  if c.isDigit then some (c.toNat - 48) else none

/-- Hexadecimal digit value of a character, if it is a hex digit. -/
def hexDigitVal (c : Char) : Option Nat :=
  if c.isDigit then some (c.toNat - 48)
  else if 'a' ≤ c ∧ c ≤ 'f' then some (c.toNat - 87)
  else if 'A' ≤ c ∧ c ≤ 'F' then some (c.toNat - 55)
  else none

/-- Longest prefix of digit values accepted by `f`. -/
def takeDigitVals (f : Char → Option Nat) : List Char → List Nat
  | [] => []
  | c :: rest =>
    match f c with
    | some d => d :: takeDigitVals f rest
    | none => []

/-- Fold a list of digit values in the given base into a number. -/
def digitsToNat (base : Nat) (ds : List Nat) : Nat :=
  ds.foldl (fun a d => a * base + d) 0

/-- JS `parseInt(s)` with no radix argument: skip leading whitespace, accept
an optional sign, switch to base 16 on a `0x`/`0X` prefix, consume the
longest digit prefix and ignore any trailing garbage; `none` models `NaN`
(no digits at all). -/
def jsParseInt (s : String) : Option Int :=
  let cs := s.data.dropWhile (fun c => c == ' ' || c == '\t' || c == '\n' || c == '\r')
  let signAndRest : Bool × List Char :=
    match cs with
    | '-' :: rest => (true, rest)
    | '+' :: rest => (false, rest)
    | _ => (false, cs)
  let baseAndRest : Nat × List Char :=
    match signAndRest.2 with
    | '0' :: 'x' :: rest => (16, rest)
    | '0' :: 'X' :: rest => (16, rest)
    | _ => (10, signAndRest.2)
  let ds := takeDigitVals (if baseAndRest.1 == 16 then hexDigitVal else decDigitVal) baseAndRest.2
  if ds.isEmpty then none
  else some ((if signAndRest.1 then -1 else 1) * (digitsToNat baseAndRest.1 ds : Int))

/-- Whether `pat` occurs at the head of `cs`. -/
def headMatches : List Char → List Char → Bool
  | _, [] => true
  | [], _ :: _ => false
  | c :: cs, p :: ps => c == p && headMatches cs ps

/-- Remove the first occurrence of `pat` from `cs`, leaving the rest
unchanged. -/
def removeFirstOcc (pat : List Char) : List Char → List Char
  | [] => []
  | c :: rest =>
    if headMatches (c :: rest) pat then (c :: rest).drop pat.length
    else c :: removeFirstOcc pat rest

/-- JS `s.replace(pat, "")`: remove the first occurrence of `pat` only. -/
def replaceFirst (s : String) (pat : String) : String :=
  String.mk (removeFirstOcc pat.data s.data)

/-- Split a character list at the first `"://"`, returning the scheme part
and the remainder. -/
def splitSchemeRest : List Char → Option (List Char × List Char)
  | [] => none
  | ':' :: '/' :: '/' :: rest => some ([], rest)
  | c :: cs => (splitSchemeRest cs).map (fun p => (c :: p.1, p.2))

/-- Hostname of a URL as produced by JS `new URL(url).hostname`, modelled for
`scheme://host[:port][/path][?query][#frag]` URLs (userinfo is not
modelled); `none` models the constructor throwing. -/
def urlHostname (url : String) : Option String :=
  match splitSchemeRest url.data with
  | none => none
  | some sr =>
    if sr.1.isEmpty then none
    else
      let host := sr.2.takeWhile (fun c => !(c == '/' || c == ':' || c == '?' || c == '#'))
      if host.isEmpty then none else some (String.mk host)

/-- Split a character list on a separator character; JS
`s.split(sep)` semantics (an empty list yields one empty segment). -/
def splitOnChar (sep : Char) : List Char → List (List Char)
  | [] => [[]]
  | c :: rest =>
    if c == sep then [] :: splitOnChar sep rest
    else
      match splitOnChar sep rest with
      | [] => [[c]]
      | seg :: segs => (c :: seg) :: segs

/-- The dot-separated labels of a hostname: JS `host.split(".")`. -/
def splitDots (s : String) : List String :=
  (splitOnChar '.' s.data).map String.mk

/-! ## Data model (§3): tables of the relational store -/

/-- Site row (`sites` table); only the columns the embedded code reads. -/
structure Site where
  siteId : Nat
  orgId : String
  name : Option String
  publicIp : Option String
  dnsAuthorityEnabled : Bool
  exitNodeId : Option Nat
deriving DecidableEq, Repr

/-- Org row (`orgs` table). -/
structure Org where
  orgId : String
  name : String
deriving DecidableEq, Repr

/-- Resource row (`resources` table). -/
structure Resource where
  resourceId : Nat
  orgId : String
  name : String
  fullDomain : Option String
  ssl : Bool
  sso : Bool
  blockAccess : Bool
  emailWhitelistEnabled : Bool
  dnsAuthorityEnabled : Bool
  dnsAuthorityTtl : Option Nat
  dnsAuthorityRoutingPolicy : Option String
deriving DecidableEq, Repr

/-- Target row (`targets` table). -/
structure Target where
  targetId : Nat
  resourceId : Nat
  siteId : Nat
  ip : String
  port : Nat
  enabled : Bool
  priority : Option Nat
  ssl : Bool
deriving DecidableEq, Repr

/-- Target-health row (`targetHealthCheck` table), one-to-one with a target. -/
structure TargetHealth where
  targetId : Nat
  hcEnabled : Bool
  hcHealth : String
deriving DecidableEq, Repr

/-- Newt agent row (`newts` table), bound to at most one site. -/
structure Newt where
  newtId : String
  siteId : Nat
deriving DecidableEq, Repr

/-- Client row (`clients` table); a client may belong to an Olm. -/
structure Client where
  clientId : Nat
  olmId : Option String
deriving DecidableEq, Repr

/-- Client-site association row (`clientSitesAssociationsCache` table). -/
structure ClientSiteAssoc where
  clientId : Nat
  siteId : Nat
deriving DecidableEq, Repr

/-- Resource e-mail whitelist row (`resourceWhitelist` table). -/
structure WhitelistEntry where
  resourceId : Nat
  email : String
deriving DecidableEq, Repr

/-- Session row (`sessions` table); `expiresAt` is an epoch timestamp. -/
structure Session where
  sessionToken : String
  userId : String
  expiresAt : Int
deriving DecidableEq, Repr

/-- User row (`users` table). -/
structure User where
  userId : String
  email : String
deriving DecidableEq, Repr

/-- Snapshot of the relational store read by the reconcilers. -/
structure DB where
  sites : List Site
  orgs : List Org
  resources : List Resource
  targets : List Target
  targetHealthCheck : List TargetHealth
  newts : List Newt
  clients : List Client
  clientSitesAssociationsCache : List ClientSiteAssoc
  resourceWhitelist : List WhitelistEntry
  sessions : List Session
  users : List User
deriving DecidableEq, Repr

/-- Process configuration: `app.dashboard_url`, `server.secret` and the
cached JWT public key PEM returned by `getJwtPublicKeyPem()`. -/
structure AppConfig where
  dashboardUrl : Option String
  serverSecret : Option String
  jwtPublicKeyPem : String
deriving DecidableEq, Repr

/-- Well-formedness of the store assumed by the §3 data model: nullable
IPv4 / domain columns hold `NULL` or a non-empty string, never `""`. -/
def WF (db : DB) : Prop :=
  (∀ s ∈ db.sites, s.publicIp ≠ some "") ∧
  (∀ r ∈ db.resources, r.fullDomain ≠ some "")

/-! ## DNS-authority reconciler (C3 in §2, `dnsAuthority.ts`) -/

/-- DNSAuthorityTarget: a target IP with health status, as pushed to agents. -/
structure DNSAuthorityTarget where
  ip : String
  priority : Nat
  healthy : Bool
  siteId : Nat
  siteName : String
deriving DecidableEq, Repr

/-- DNSAuthorityConfig: configuration for one DNS authority zone. -/
structure DNSAuthorityConfig where
  enabled : Bool
  domain : String
  ttl : Nat
  routingPolicy : String
  targets : List DNSAuthorityTarget
deriving DecidableEq, Repr

/-- Zone entry inside a config message: an `update` carries a full zone
config, a `remove` carries only `{domain}` (the TS code casts a bare
`{domain}` object, so no other field is present on the wire). -/
inductive ZoneEntry where
  | full (cfg : DNSAuthorityConfig)
  | domainOnly (domain : String)
deriving DecidableEq, Repr

/-- DNSAuthorityConfigMessage: the `data` of a `*/dns/authority/config`
message. -/
structure DNSAuthorityConfigMessage where
  action : String
  zones : List ZoneEntry
deriving DecidableEq, Repr

/-- An outbound send: `(agentId, messageType, payload)`. -/
structure Send where
  agentId : String
  msgType : String
  payload : DNSAuthorityConfigMessage
deriving DecidableEq, Repr

/-- Row shape of the `buildDNSAuthorityConfig` select: targets inner-joined
with their site and left-joined with their health-check row. -/
structure DNSJoinRow where
  targetId : Nat
  siteId : Nat
  ip : String
  port : Nat
  enabled : Bool
  priority : Option Nat
  siteName : Option String
  sitePublicIp : Option String
  siteDnsAuthorityEnabled : Bool
  hcEnabled : Option Bool
  hcHealth : Option String
deriving DecidableEq, Repr

/-- The `resourceTargets` query of `buildDNSAuthorityConfig`: all targets of
the resource inner-joined with `sites` and left-joined with
`targetHealthCheck`. -/
def dnsResourceTargets (db : DB) (resourceId : Nat) : List DNSJoinRow :=
  (db.targets.filter (fun t => t.resourceId == resourceId)).filterMap (fun t =>
    (db.sites.find? (fun s => s.siteId == t.siteId)).map (fun s =>
      let h := db.targetHealthCheck.find? (fun hc => hc.targetId == t.targetId)
      { targetId := t.targetId
        siteId := t.siteId
        ip := t.ip
        port := t.port
        enabled := t.enabled
        priority := t.priority
        siteName := s.name
        sitePublicIp := s.publicIp
        siteDnsAuthorityEnabled := s.dnsAuthorityEnabled
        hcEnabled := h.map (fun hc => hc.hcEnabled)
        hcHealth := h.map (fun hc => hc.hcHealth) }))

/-- The `validTargets` filter of `buildDNSAuthorityConfig`: enabled targets
on sites with a (truthy) public IP and DNS authority enabled. -/
def dnsValidTargets (db : DB) (resourceId : Nat) : List DNSJoinRow :=
  (dnsResourceTargets db resourceId).filter
    (fun t => t.enabled && jsTruthyStr t.sitePublicIp && t.siteDnsAuthorityEnabled)

/-- Map a retained join row to the emitted `DNSAuthorityTarget`: the answer
IP is the site's public IP, never the target's internal IP. -/
def dnsTargetOfRow (t : DNSJoinRow) : DNSAuthorityTarget :=
  { ip := t.sitePublicIp.getD ""
    priority := jsOrNat t.priority 100
    healthy := match t.hcEnabled with
      | some true => t.hcHealth == some "healthy"
      | _ => true
    siteId := t.siteId
    siteName := jsOrStr t.siteName ("Site " ++ toString t.siteId) }

/-- buildDNSAuthorityConfig: build the zone configuration for a resource, or
`null` when the resource is missing, DNS authority is off, the domain is
falsy, or no valid target remains. -/
def buildDNSAuthorityConfig (db : DB) (resourceId : Nat) : Option DNSAuthorityConfig :=
  match db.resources.find? (fun r => r.resourceId == resourceId) with
  | none => none
  | some resource =>
    if !resource.dnsAuthorityEnabled then none
    else if !jsTruthyStr resource.fullDomain then none
    else
      let validTargets := dnsValidTargets db resourceId
      if validTargets.isEmpty then none
      else some
        { enabled := true
          domain := resource.fullDomain.getD ""
          ttl := jsOrNat resource.dnsAuthorityTtl 60
          routingPolicy := jsOrStr resource.dnsAuthorityRoutingPolicy "failover"
          targets := validTargets.map dnsTargetOfRow }

/-- The DNS-authority site set of a resource, as computed at the top of
`getDNSAuthoritySiteOlmIds`: sites hosting an enabled target of the
resource that have DNS authority enabled and a truthy public IP. -/
def dnsAuthoritySiteIds (db : DB) (resourceId : Nat) : List Nat :=
  ((db.targets.filter (fun t => t.resourceId == resourceId && t.enabled)).filterMap
    (fun t => db.sites.find? (fun s => s.siteId == t.siteId))).filterMap
    (fun s => if s.dnsAuthorityEnabled && jsTruthyStr s.publicIp then some s.siteId else none)

/-- Olm ids associated (via `clientSitesAssociationsCache` and `clients`)
with one given site; rows with a null `olmId` are excluded by the
`isNotNull` condition of the query. -/
def olmIdsForSite (db : DB) (siteId : Nat) : List String :=
  (db.clientSitesAssociationsCache.filter (fun a => a.siteId == siteId)).filterMap
    (fun a => (db.clients.find? (fun c => c.clientId == a.clientId)).bind
      (fun c => c.olmId))

/-- getDNSAuthoritySiteOlmIds: all Olm ids whose clients associate with any
DNS-authority site of the resource, queried one site at a time and
deduplicated preserving first-insertion order. -/
def getDNSAuthoritySiteOlmIds (db : DB) (resourceId : Nat) : List String :=
  let siteIds := dnsAuthoritySiteIds db resourceId
  if siteIds.isEmpty then []
  else
    let olmClients := siteIds.flatMap (fun sid => olmIdsForSite db sid)
    dedupFirst (olmClients.filter (fun o => !(o == "")))

/-- getDNSAuthoritySiteNewtIds: `(newtId, siteId)` pairs for Newts on
DNS-authority sites of the resource (inner join with `newts`, empty
newt ids filtered out). -/
def getDNSAuthoritySiteNewtIds (db : DB) (resourceId : Nat) : List (String × Nat) :=
  (((db.targets.filter (fun t => t.resourceId == resourceId && t.enabled)).filterMap
    (fun t => (db.sites.find? (fun s => s.siteId == t.siteId)).bind
      (fun s => (db.newts.find? (fun n => n.siteId == s.siteId)).map (fun n => (s, n))))).filter
    (fun sn => jsTruthyStr sn.1.publicIp && sn.1.dnsAuthorityEnabled)).filterMap
    (fun sn => if sn.2.newtId == "" then none else some (sn.2.newtId, sn.1.siteId))

/-- The message a recipient receives from `updateDNSAuthorityForResource`:
an `update` with the built zone when it exists, a `remove` with the bare
domain when the zone is null but the resource has a truthy `fullDomain`,
nothing otherwise. -/
def dnsUpdateMessageFor (db : DB) (resourceId : Nat)
    (config : Option DNSAuthorityConfig) : Option DNSAuthorityConfigMessage :=
  match config with
  | some cfg => some { action := "update", zones := [ZoneEntry.full cfg] }
  | none =>
    match db.resources.find? (fun r => r.resourceId == resourceId) with
    | none => none
    | some resource =>
      match resource.fullDomain with
      | none => none
      | some d => if d == "" then none
        else some { action := "remove", zones := [ZoneEntry.domainOnly d] }

/-- updateDNSAuthorityForResource: rebuild the zone config and dispatch it
(or a remove) to every Newt recipient, then to every Olm recipient.
The returned list is the sequence of sends. -/
def updateDNSAuthorityForResource (db : DB) (resourceId : Nat) : List Send :=
  let config := buildDNSAuthorityConfig db resourceId
  let newtSends := (getDNSAuthoritySiteNewtIds db resourceId).filterMap
    (fun ns => (dnsUpdateMessageFor db resourceId config).map
      (fun m => Send.mk ns.1 "newt/dns/authority/config" m))
  let olmSends := (getDNSAuthoritySiteOlmIds db resourceId).filterMap
    (fun olmId => (dnsUpdateMessageFor db resourceId config).map
      (fun m => Send.mk olmId "olm/dns/authority/config" m))
  newtSends ++ olmSends

/-- State-passing wrapper for `updateDNSAuthorityForResource`: the function
issues no database writes, so the store is returned unchanged alongside
the sends it performed. -/
def runUpdateDNSAuthorityForResource (db : DB) (resourceId : Nat) :
    DB × List Send :=
  (db, updateDNSAuthorityForResource db resourceId)

/-- The resource-id lookup of `onHealthCheckUpdate`: target joined with its
resource, returning `(resourceId, dnsAuthorityEnabled)`. -/
def healthTargetResource (db : DB) (targetId : Nat) : Option (Nat × Bool) :=
  (db.targets.find? (fun t => t.targetId == targetId)).bind (fun t =>
    (db.resources.find? (fun r => r.resourceId == t.resourceId)).map
      (fun r => (r.resourceId, r.dnsAuthorityEnabled)))

/-- One iteration of the `resourceIds` accumulation loop of
`onHealthCheckUpdate`: add the target's resource id to the set when the
lookup succeeds and the resource has DNS authority enabled. -/
def hcAccStep (db : DB) (acc : List Nat) (tid : Nat) : List Nat :=
  match healthTargetResource db tid with
  | some (rid, true) => insertUnique acc rid
  | _ => acc

/-- The deduplicated affected-resource set built by `onHealthCheckUpdate`
(a JS `Set`, insertion order). -/
def onHealthCheckUpdateResourceIds (db : DB) (targetIds : List Nat) : List Nat :=
  targetIds.foldl (hcAccStep db) []

/-- onHealthCheckUpdate: collapse the updated targets to their distinct
DNS-authority-enabled resources and dispatch one update per resource. -/
def onHealthCheckUpdate (db : DB) (targetIds : List Nat) : List Send :=
  (onHealthCheckUpdateResourceIds db targetIds).flatMap
    (fun rid => updateDNSAuthorityForResource db rid)

/-! ## Olm sync bootstrap (`olm/sync.ts`) -/

/-- Site ids the client of an Olm is associated with, per
`clientSitesAssociationsCache`. -/
def clientAssociatedSiteIds (db : DB) (clientId : Nat) : List Nat :=
  (db.clientSitesAssociationsCache.filter (fun a => a.clientId == clientId)).map
    (fun a => a.siteId)

/-- The `dnsResources` query of `sendDNSAuthorityZonesToOlm`: enabled
targets joined with a DNS-authority-enabled resource and a
DNS-authority-enabled site, keeping the site columns used by the filter. -/
def syncDnsResourceRows (db : DB) : List (Nat × Site) :=
  db.targets.filterMap (fun t =>
    if !t.enabled then none
    else (db.resources.find? (fun r => r.resourceId == t.resourceId)).bind (fun r =>
      if !r.dnsAuthorityEnabled then none
      else (db.sites.find? (fun s => s.siteId == t.siteId)).bind (fun s =>
        if !s.dnsAuthorityEnabled then none
        else some (r.resourceId, s))))

/-- sendDNSAuthorityZonesToOlm: after an `olm/sync`, push current zones to
the reconnecting Olm.  The source filters the joined rows only on
`sitePublicIp && siteDnsAuthorityEnabled`; the siteId-membership re-check
announced in its inline comment is absent, so the computed
`associatedSites` list is used only for the emptiness guard. -/
def sendDNSAuthorityZonesToOlm (db : DB) (olmId : String) (clientId : Nat) :
    List Send :=
  let associatedSites := clientAssociatedSiteIds db clientId
  if associatedSites.isEmpty then []
  else
    let relevantResourceIds := dedupFirst
      (((syncDnsResourceRows db).filter
        (fun rs => jsTruthyStr rs.2.publicIp && rs.2.dnsAuthorityEnabled)).map
        (fun rs => rs.1))
    if relevantResourceIds.isEmpty then []
    else
      let zones := relevantResourceIds.filterMap (fun rid => buildDNSAuthorityConfig db rid)
      if zones.isEmpty then []
      else [Send.mk olmId "olm/dns/authority/config"
        { action := "update", zones := zones.map ZoneEntry.full }]

/-! ## Auth-proxy reconciler (`auth/authProxy.ts`) -/

/-- AuthConfig: global authentication configuration for a site. -/
structure AuthConfig where
  enabled : Bool
  pangolinUrl : String
  jwtPublicKey : String
  cookieName : String
  cookieDomain : String
  sessionValidationUrl : String
deriving DecidableEq, Repr

/-- ResourceAuthConfig: auth configuration for a specific resource. -/
structure ResourceAuthConfig where
  resourceId : Nat
  domain : String
  sso : Bool
  blockAccess : Bool
  emailWhitelistEnabled : Bool
  allowedEmails : List String
  targetUrl : String
  ssl : Bool
deriving DecidableEq, Repr

/-- AuthProxyConfigMessage: the `data` of a `newt/auth/proxy/config`
message. -/
structure AuthProxyConfigMessage where
  action : String
  auth : AuthConfig
  resources : List ResourceAuthConfig
deriving DecidableEq, Repr

/-- Row shape of the `siteTargets` select of `buildAuthProxyConfig`:
enabled targets on the site inner-joined with their resource. -/
structure AuthJoinRow where
  resourceId : Nat
  siteId : Nat
  targetIp : String
  targetPort : Nat
  fullDomain : Option String
  sso : Bool
  blockAccess : Bool
  emailWhitelistEnabled : Bool
  ssl : Bool
  dnsAuthorityEnabled : Bool
deriving DecidableEq, Repr

/-- The `siteTargets` query: enabled targets on the site joined with their
resources. -/
def authProxySiteTargets (db : DB) (siteId : Nat) : List AuthJoinRow :=
  (db.targets.filter (fun t => t.siteId == siteId && t.enabled)).filterMap (fun t =>
    (db.resources.find? (fun r => r.resourceId == t.resourceId)).map (fun r =>
      { resourceId := t.resourceId
        siteId := t.siteId
        targetIp := t.ip
        targetPort := t.port
        fullDomain := r.fullDomain
        sso := r.sso
        blockAccess := r.blockAccess
        emailWhitelistEnabled := r.emailWhitelistEnabled
        ssl := r.ssl
        dnsAuthorityEnabled := r.dnsAuthorityEnabled }))

/-- The `protectedResources` filter: rows whose resource has DNS authority
enabled together with SSO, blocked access, or an e-mail whitelist. -/
def protectedResources (db : DB) (siteId : Nat) : List AuthJoinRow :=
  (authProxySiteTargets db siteId).filter
    (fun t => t.dnsAuthorityEnabled && (t.sso || t.blockAccess || t.emailWhitelistEnabled))

/-- extractBaseDomain: cookie base domain of a URL — `"."` plus the last two
host labels when the host has at least two, the bare hostname when it has
exactly one, `""` when URL parsing throws. -/
def extractBaseDomain (url : String) : String :=
  match urlHostname url with
  | none => ""
  | some host =>
    if (splitDots host).length ≥ 2 then
      "." ++ String.intercalate "." ((splitDots host).drop ((splitDots host).length - 2))
    else host

/-- Per-resource configs built by the loop of `buildAuthProxyConfig`: rows
with a falsy `fullDomain` are skipped (`continue`), the whitelist is
loaded only when `emailWhitelistEnabled`. -/
def resourceAuthConfigs (db : DB) (rows : List AuthJoinRow) : List ResourceAuthConfig :=
  rows.filterMap (fun t =>
    if !jsTruthyStr t.fullDomain then none
    else some
      { resourceId := t.resourceId
        domain := t.fullDomain.getD ""
        sso := t.sso
        blockAccess := t.blockAccess
        emailWhitelistEnabled := t.emailWhitelistEnabled
        allowedEmails :=
          if t.emailWhitelistEnabled then
            ((db.resourceWhitelist.filter (fun w => w.resourceId == t.resourceId)).map
              (fun w => w.email))
          else []
        targetUrl := (if t.ssl then "https" else "http") ++ "://" ++ t.targetIp
          ++ ":" ++ toString t.targetPort
        ssl := t.ssl })

/-- The global `AuthConfig` record built by `buildAuthProxyConfig` from the
dashboard URL and the cached JWT public key. -/
def authConfigFor (cfg : AppConfig) : AuthConfig :=
  { enabled := true
    pangolinUrl := cfg.dashboardUrl.getD ""
    jwtPublicKey := cfg.jwtPublicKeyPem
    cookieName := "p_session"
    cookieDomain := extractBaseDomain (cfg.dashboardUrl.getD "")
    sessionValidationUrl := cfg.dashboardUrl.getD "" ++ "/api/v1/auth/session/validate" }

/-- buildAuthProxyConfig: per-site auth-proxy message, or `null` when the
site or its org is missing, no protected resource is hosted, or the
dashboard URL is not configured. -/
def buildAuthProxyConfig (db : DB) (cfg : AppConfig) (siteId : Nat) :
    Option AuthProxyConfigMessage :=
  match db.sites.find? (fun s => s.siteId == siteId) with
  | none => none
  | some site =>
    match db.orgs.find? (fun o => o.orgId == site.orgId) with
    | none => none
    | some _ =>
      if (protectedResources db siteId).isEmpty then none
      else if !jsTruthyStr cfg.dashboardUrl then none
      else some
        { action := "update"
          auth := authConfigFor cfg
          resources := resourceAuthConfigs db (protectedResources db siteId) }

/-- updateAuthProxyForSite: look up the site joined with its Newt and send
the built config to that Newt; nothing is sent when the join is empty,
the newt id is falsy, or the config is `null`. -/
def updateAuthProxyForSite (db : DB) (cfg : AppConfig) (siteId : Nat) :
    List (String × AuthProxyConfigMessage) :=
  match db.sites.find? (fun s => s.siteId == siteId) with
  | none => []
  | some _ =>
    match db.newts.find? (fun n => n.siteId == siteId) with
    | none => []
    | some n =>
      if n.newtId == "" then []
      else
        match buildAuthProxyConfig db cfg siteId with
        | none => []
        | some c => [(n.newtId, c)]

/-! ## Health-status ingestor (`target/handleHealthcheckStatusMessage.ts`) -/

/-- Tenancy check of the health ingestor: the target joined with its
resource and site, restricted to the reporter's bound site.  The parsed
id is an `Int` (JS `parseInt` may return a negative number); a row exists
only when the target exists, its resource and site rows exist, and the
target's site is the reporter's site. -/
def tenancyLookup (db : DB) (targetIdNum : Int) (newtSiteId : Nat) : Option Nat :=
  (db.targets.find? (fun t => ((t.targetId : Int) == targetIdNum)
      && (t.siteId == newtSiteId))).bind (fun t =>
    (db.resources.find? (fun r => r.resourceId == t.resourceId)).bind (fun _ =>
      (db.sites.find? (fun s => s.siteId == t.siteId)).map (fun _ => t.targetId)))

/-- The `UPDATE targetHealthCheck SET hcHealth = status WHERE targetId = id`
statement; zero rows may match, in which case nothing changes. -/
def setHealth (hcs : List TargetHealth) (targetIdNum : Int) (status : String) :
    List TargetHealth :=
  hcs.map (fun h =>
    if (h.targetId : Int) == targetIdNum then { h with hcHealth := status } else h)

/-- Mutable state threaded through a `healthcheck/status` batch: the store
(whose `targetHealthCheck` table the loop mutates) and the loop counters. -/
structure HCState where
  db : DB
  successCount : Nat
  errorCount : Nat
  updatedTargetIds : List Int
deriving DecidableEq, Repr

/-- One loop iteration of `handleHealthcheckStatusMessage` over an entry
`(targetId key, reported status)`: parse the key, run the tenancy check,
and either update the health row or count an error. -/
def stepHC (newtSiteId : Nat) (st : HCState) (entry : String × String) : HCState :=
  match jsParseInt entry.1 with
  | none => { st with errorCount := st.errorCount + 1 }
  | some targetIdNum =>
    match tenancyLookup st.db targetIdNum newtSiteId with
    | none => { st with errorCount := st.errorCount + 1 }
    | some _ =>
      { st with
        db := { st.db with
          targetHealthCheck := setHealth st.db.targetHealthCheck targetIdNum entry.2 }
        successCount := st.successCount + 1
        updatedTargetIds := st.updatedTargetIds ++ [targetIdNum] }

/-- The entry loop of `handleHealthcheckStatusMessage`. -/
def processHCEntries (newtSiteId : Nat) (st : HCState)
    (entries : List (String × String)) : HCState :=
  entries.foldl (stepHC newtSiteId) st

/-- handleHealthcheckStatusMessage: process every entry of the batch, then
notify the DNS-authority reconciler once with the updated target ids
(only when at least one update succeeded).  Returns the final state and
the DNS-authority sends. -/
def handleHealthcheckStatusMessage (db : DB) (newtSiteId : Nat)
    (entries : List (String × String)) : HCState × List Send :=
  let st := processHCEntries newtSiteId
    { db := db, successCount := 0, errorCount := 0, updatedTargetIds := [] } entries
  (st,
    if st.updatedTargetIds.isEmpty then []
    else onHealthCheckUpdate st.db (st.updatedTargetIds.filterMap (fun i => i.toNat')))

/-! ## Session validator (`auth/validateSession.ts`) -/

/-- Response of `GET /api/v1/auth/session/validate`.  `expiresAt` carries
the matched session's expiry timestamp; on the wire it is rendered with
`Date.prototype.toISOString`, an injective formatting not re-modelled
here. -/
structure SessionValidationResponse where
  status : Nat
  valid : Bool
  userId : Option String
  email : Option String
  expiresAt : Option Int
deriving DecidableEq, Repr

/-- The request data the handler reads: the `p_session` cookie and the
`Authorization` header, each possibly absent. -/
structure ValidateRequest where
  cookieToken : Option String
  authHeader : Option String
deriving DecidableEq, Repr

/-- Token extraction: `req.cookies?.p_session ||
req.headers.authorization?.replace("Bearer ", "")`, followed by the
`if (!sessionToken)` falsy guard; `none` means no (truthy) token. -/
def extractSessionToken (req : ValidateRequest) : Option String :=
  let tok := if jsTruthyStr req.cookieToken then req.cookieToken
    else req.authHeader.map (fun h => replaceFirst h "Bearer ")
  match tok with
  | none => none
  | some s => if s == "" then none else some s

/-- The session lookup: token equality plus `expiresAt > now`. -/
def findValidSession (db : DB) (now : Int) (tok : String) : Option Session :=
  db.sessions.find? (fun s => (s.sessionToken == tok) && (now < s.expiresAt))

/-- The user lookup for the matched session. -/
def findUser (db : DB) (userId : String) : Option User :=
  db.users.find? (fun u => u.userId == userId)

/-- The `200 {valid: false}` response body. -/
def invalidSessionResponse : SessionValidationResponse :=
  { status := 200, valid := false, userId := none, email := none, expiresAt := none }

/-- validateSession: validate a session token from cookie or header; every
lookup failure yields `200 {valid: false}`, success yields `200` with
user id, e-mail and expiry. -/
def validateSession (db : DB) (now : Int) (req : ValidateRequest) :
    SessionValidationResponse :=
  match extractSessionToken req with
  | none => invalidSessionResponse
  | some tok =>
    match findValidSession db now tok with
    | none => invalidSessionResponse
    | some session =>
      match findUser db session.userId with
      | none => invalidSessionResponse
      | some user =>
        { status := 200, valid := true, userId := some user.userId,
          email := some user.email, expiresAt := some session.expiresAt }

/-! ## Spec-side zone-config construction (for the refinement claim C2)

The following definition is written from the spec's words (§4.2, zone-config
construction): `null` when the resource is missing, DNS authority is off, or
`fullDomain` is absent; retain a target iff
`target.enabled && site.dnsAuthorityEnabled && site.publicIp != null`;
`null` when no target is retained; otherwise the §4.2 step-5 record. -/

/-- Modelled from the spec's retain rule (§4.2 step 2): a target is retained
iff it is enabled and its site has DNS authority enabled and a non-null
public IP. -/
def specRetainedTargets (db : DB) (resourceId : Nat) : List DNSJoinRow :=
  (dnsResourceTargets db resourceId).filter
    (fun t => t.enabled && t.sitePublicIp.isSome && t.siteDnsAuthorityEnabled)

/-- Modelled from the spec's zone-config construction (§4.2 steps 1-5). -/
def buildDNSAuthorityConfigSpec (db : DB) (resourceId : Nat) :
    Option DNSAuthorityConfig :=
  match db.resources.find? (fun r => r.resourceId == resourceId) with
  | none => none
  | some resource =>
    if !resource.dnsAuthorityEnabled then none
    else
      match resource.fullDomain with
      | none => none
      | some domain =>
        let retained := specRetainedTargets db resourceId
        if retained.isEmpty then none
        else some
          { enabled := true
            domain := domain
            ttl := jsOrNat resource.dnsAuthorityTtl 60
            routingPolicy := jsOrStr resource.dnsAuthorityRoutingPolicy "failover"
            targets := retained.map dnsTargetOfRow }

/-! ## Concrete states used as witnesses and counterexamples -/

/-- Happy-path site: DNS authority enabled with a public IP (§8 S1). -/
def exSite1 : Site :=
  { siteId := 1, orgId := "org1", name := some "Site One",
    publicIp := some "203.0.113.10", dnsAuthorityEnabled := true, exitNodeId := none }

/-- Happy-path org. -/
def exOrg : Org := { orgId := "org1", name := "Org One" }

/-- Happy-path protected resource with DNS authority and SSO. -/
def exResource1 : Resource :=
  { resourceId := 1, orgId := "org1", name := "svc",
    fullDomain := some "svc.example.com", ssl := false, sso := true,
    blockAccess := false, emailWhitelistEnabled := false,
    dnsAuthorityEnabled := true, dnsAuthorityTtl := none,
    dnsAuthorityRoutingPolicy := none }

/-- Happy-path enabled target on site 1. -/
def exTarget1 : Target :=
  { targetId := 12, resourceId := 1, siteId := 1, ip := "10.0.0.5",
    port := 8080, enabled := true, priority := none, ssl := false }

/-- Health row of the happy-path target (health checks disabled). -/
def exHealth1 : TargetHealth :=
  { targetId := 12, hcEnabled := false, hcHealth := "unknown" }

/-- Newt bound to site 1. -/
def exNewt1 : Newt := { newtId := "n1", siteId := 1 }

/-- Happy-path store snapshot. -/
def exDB : DB :=
  { sites := [exSite1], orgs := [exOrg], resources := [exResource1],
    targets := [exTarget1], targetHealthCheck := [exHealth1],
    newts := [exNewt1], clients := [{ clientId := 1, olmId := some "o1" }],
    clientSitesAssociationsCache := [{ clientId := 1, siteId := 1 }],
    resourceWhitelist := [],
    sessions := [{ sessionToken := "abc", userId := "u1", expiresAt := 1000 }],
    users := [{ userId := "u1", email := "a@x" }] }

/-- Happy-path process configuration. -/
def exCfg : AppConfig :=
  { dashboardUrl := some "https://app.example.com", serverSecret := some "secret",
    jwtPublicKeyPem := "PEM" }

/-- Initial loop state of a `healthcheck/status` batch over `exDB`. -/
def exHCState0 : HCState :=
  { db := exDB, successCount := 0, errorCount := 0, updatedTargetIds := [] }

/-- The auth-proxy message built for site 1 of `exDB` under `exCfg`. -/
def exAuthMsg : AuthProxyConfigMessage :=
  { action := "update"
    auth :=
      { enabled := true
        pangolinUrl := "https://app.example.com"
        jwtPublicKey := "PEM"
        cookieName := "p_session"
        cookieDomain := ".example.com"
        sessionValidationUrl := "https://app.example.com/api/v1/auth/session/validate" }
    resources :=
      [{ resourceId := 1, domain := "svc.example.com", sso := true,
         blockAccess := false, emailWhitelistEnabled := false,
         allowedEmails := [], targetUrl := "http://10.0.0.5:8080", ssl := false }] }

/-- Store for the C1 failing input: the Olm's client 1 associates only with
site 1, while resource 2 (DNS authority enabled) is served only by
site 2. -/
def bugDB : DB :=
  { sites :=
      [exSite1,
       { siteId := 2, orgId := "org1", name := some "Site Two",
         publicIp := some "203.0.113.20", dnsAuthorityEnabled := true,
         exitNodeId := none }]
    orgs := [exOrg]
    resources :=
      [{ resourceId := 2, orgId := "org1", name := "other",
         fullDomain := some "other.example.com", ssl := false, sso := false,
         blockAccess := false, emailWhitelistEnabled := false,
         dnsAuthorityEnabled := true, dnsAuthorityTtl := none,
         dnsAuthorityRoutingPolicy := none }]
    targets :=
      [{ targetId := 21, resourceId := 2, siteId := 2, ip := "10.1.0.5",
         port := 80, enabled := true, priority := none, ssl := false }]
    targetHealthCheck := []
    newts := []
    clients := [{ clientId := 1, olmId := some "o1" }]
    clientSitesAssociationsCache := [{ clientId := 1, siteId := 1 }]
    resourceWhitelist := []
    sessions := []
    users := [] }

/-- The zone that `sendDNSAuthorityZonesToOlm` builds for resource 2 of
`bugDB`. -/
def bugZone : DNSAuthorityConfig :=
  { enabled := true, domain := "other.example.com", ttl := 60,
    routingPolicy := "failover",
    targets :=
      [{ ip := "203.0.113.20", priority := 100, healthy := true,
         siteId := 2, siteName := "Site Two" }] }

/-- Store for the C5 counterexample: site 1 hosts an enabled target of a
protected DNS-authority resource and has a Newt, yet no message can be
emitted because the dashboard URL is not configured. -/
def cex5DB : DB :=
  { sites := [exSite1], orgs := [exOrg], resources := [exResource1],
    targets := [exTarget1], targetHealthCheck := [exHealth1],
    newts := [exNewt1], clients := [], clientSitesAssociationsCache := [],
    resourceWhitelist := [], sessions := [], users := [] }

/-- Process configuration with `app.dashboard_url` unset. -/
def cex5Cfg : AppConfig :=
  { dashboardUrl := none, serverSecret := some "secret", jwtPublicKeyPem := "PEM" }

/-- Store for the C10 witness: the only protected resource of site 1 has no
`fullDomain`. -/
def noFdDB : DB :=
  { sites := [exSite1], orgs := [exOrg],
    resources :=
      [{ resourceId := 3, orgId := "org1", name := "nofd",
         fullDomain := none, ssl := false, sso := true,
         blockAccess := false, emailWhitelistEnabled := false,
         dnsAuthorityEnabled := true, dnsAuthorityTtl := none,
         dnsAuthorityRoutingPolicy := none }]
    targets :=
      [{ targetId := 31, resourceId := 3, siteId := 1, ip := "10.0.0.9",
         port := 9000, enabled := true, priority := none, ssl := false }]
    targetHealthCheck := []
    newts := [exNewt1]
    clients := []
    clientSitesAssociationsCache := []
    resourceWhitelist := []
    sessions := []
    users := [] }

/-! ## Supporting lemmas -/

/-- On a nullable string column that is never `some ""`, JS truthiness is
exactly non-nullness. -/
theorem jsTruthyStr_eq_isSome (o : Option String) (h : o ≠ some "") :
    jsTruthyStr o = o.isSome := by
  cases o with
  | none => rfl
  | some s =>
    have hs : s ≠ "" := by
      intro hs
      exact h (by rw [hs])
    simp [jsTruthyStr, hs]

/-- Every row of the `buildDNSAuthorityConfig` join takes its
`sitePublicIp` column from an existing site row. -/
theorem dnsResourceTargets_publicIp_mem (db : DB) (resourceId : Nat) :
    ∀ t ∈ dnsResourceTargets db resourceId, ∃ s ∈ db.sites, t.sitePublicIp = s.publicIp := by
  intro t ht
  unfold dnsResourceTargets at ht
  rw [List.mem_filterMap] at ht
  obtain ⟨tg, _, hmap⟩ := ht
  cases hfind : db.sites.find? (fun s => s.siteId == tg.siteId) with
  | none => rw [hfind] at hmap; simp at hmap
  | some s =>
    rw [hfind] at hmap
    simp only [Option.map_some'] at hmap
    injection hmap with h
    refine ⟨s, List.mem_of_find?_eq_some hfind, ?_⟩
    rw [← h]

/-- Membership after a `Set`-style insertion. -/
theorem mem_insertUnique [DecidableEq α] (xs : List α) (x y : α) :
    y ∈ insertUnique xs x ↔ y ∈ xs ∨ y = x := by
  unfold insertUnique
  by_cases hx : xs.contains x
  · have hx2 : x ∈ xs := List.elem_iff.mp hx
    simp only [hx, if_true]
    constructor
    · intro h
      exact Or.inl h
    · intro h
      cases h with
      | inl h => exact h
      | inr h =>
        subst h
        exact hx2
  · have hmem : x ∉ xs := fun hm => hx (List.elem_iff.mpr hm)
    simp [hx, hmem]

/-- `Set`-style insertion preserves duplicate-freedom. -/
theorem nodup_insertUnique [DecidableEq α] (xs : List α) (x : α) (h : xs.Nodup) :
    (insertUnique xs x).Nodup := by
  unfold insertUnique
  by_cases hx : xs.contains x
  · simp only [hx, if_true]
    exact h
  · have hmem : x ∉ xs := by
      intro hm
      exact hx (List.elem_iff.mpr hm)
    simp [hx, List.nodup_append, h, hmem]

/-- One accumulation step of `onHealthCheckUpdate` preserves
duplicate-freedom. -/
theorem nodup_hcAccStep (db : DB) (acc : List Nat) (tid : Nat) (h : acc.Nodup) :
    (hcAccStep db acc tid).Nodup := by
  unfold hcAccStep
  cases hlook : healthTargetResource db tid with
  | none => exact h
  | some p =>
    cases p with
    | mk rid flag =>
      cases flag with
      | false => exact h
      | true => exact nodup_insertUnique acc rid h

/-- Membership after one accumulation step of `onHealthCheckUpdate`. -/
theorem mem_hcAccStep (db : DB) (acc : List Nat) (tid : Nat) (r : Nat) :
    r ∈ hcAccStep db acc tid ↔
      r ∈ acc ∨ healthTargetResource db tid = some (r, true) := by
  unfold hcAccStep
  cases hlook : healthTargetResource db tid with
  | none => simp
  | some p =>
    cases p with
    | mk rid flag =>
      cases flag with
      | false => simp
      | true =>
        rw [mem_insertUnique]
        constructor
        · intro h
          cases h with
          | inl h => exact Or.inl h
          | inr h => exact Or.inr (by rw [h])
        · intro h
          cases h with
          | inl h => exact Or.inl h
          | inr h =>
            injection h with h
            exact Or.inr (congrArg Prod.fst h).symm

/-- In a well-formed store the code's valid-target filter and the spec's
retain rule agree. -/
theorem dnsValidTargets_eq_specRetained (db : DB) (resourceId : Nat) (hwf : WF db) :
    dnsValidTargets db resourceId = specRetainedTargets db resourceId := by
  unfold dnsValidTargets specRetainedTargets
  apply List.filter_congr
  intro t ht
  obtain ⟨s, hs, hip⟩ := dnsResourceTargets_publicIp_mem db resourceId t ht
  have hne : t.sitePublicIp ≠ some "" := by
    rw [hip]
    exact hwf.1 s hs
  rw [jsTruthyStr_eq_isSome _ hne]

/-- The accumulation loop of `onHealthCheckUpdate` preserves
duplicate-freedom. -/
theorem nodup_foldl_hcAccStep (db : DB) (tids : List Nat) :
    ∀ acc : List Nat, acc.Nodup → (tids.foldl (hcAccStep db) acc).Nodup := by
  induction tids with
  | nil =>
    intro acc h
    exact h
  | cons t ts ih =>
    intro acc h
    simp only [List.foldl_cons]
    exact ih (hcAccStep db acc t) (nodup_hcAccStep db acc t h)

/-- Membership in the result of the accumulation loop of
`onHealthCheckUpdate`. -/
theorem mem_foldl_hcAccStep (db : DB) (tids : List Nat) :
    ∀ (acc : List Nat) (r : Nat),
      r ∈ tids.foldl (hcAccStep db) acc ↔
        r ∈ acc ∨ ∃ tid ∈ tids, healthTargetResource db tid = some (r, true) := by
  induction tids with
  | nil =>
    intro acc r
    simp
  | cons t ts ih =>
    intro acc r
    simp only [List.foldl_cons]
    rw [ih, mem_hcAccStep]
    simp only [List.mem_cons]
    constructor
    · intro h
      rcases h with (h | h) | ⟨tid, htid, h⟩
      · exact Or.inl h
      · exact Or.inr ⟨t, Or.inl rfl, h⟩
      · exact Or.inr ⟨tid, Or.inr htid, h⟩
    · intro h
      rcases h with h | ⟨tid, htid, h⟩
      · exact Or.inl (Or.inl h)
      · rcases htid with rfl | htid
        · exact Or.inl (Or.inr h)
        · exact Or.inr ⟨tid, htid, h⟩

/-! ## Claim theorems -/

/-- C2: on a well-formed store, `buildDNSAuthorityConfig` computes exactly
the spec's zone construction — `null` iff the resource is missing, DNS
authority is off, `fullDomain` is absent, or no target is enabled on a
DNS-authority site with a non-null public IP; otherwise the §4.2 record,
whose per-target IP is the site's public IP (see `dnsTargetOfRow`). -/
theorem buildDNSAuthorityConfig_refines_spec (db : DB) (resourceId : Nat)
    (hwf : WF db) :
    buildDNSAuthorityConfig db resourceId = buildDNSAuthorityConfigSpec db resourceId := by
  unfold buildDNSAuthorityConfig buildDNSAuthorityConfigSpec
  rw [dnsValidTargets_eq_specRetained db resourceId hwf]
  cases hfind : db.resources.find? (fun r => r.resourceId == resourceId) with
  | none => rfl
  | some resource =>
    have hr : resource ∈ db.resources := List.mem_of_find?_eq_some hfind
    have hfd : resource.fullDomain ≠ some "" := hwf.2 resource hr
    cases hdom : resource.fullDomain with
    | none => simp [jsTruthyStr, hdom]
    | some d =>
      have hd : d ≠ "" := by
        intro h
        rw [hdom, h] at hfd
        exact hfd rfl
      simp [jsTruthyStr, hd, hdom]

/-- C2 witness: `exDB` is well-formed and the code and spec constructions
agree on resource 1. -/
theorem buildDNSAuthorityConfig_refines_spec_witness :
    WF exDB ∧ buildDNSAuthorityConfig exDB 1 = buildDNSAuthorityConfigSpec exDB 1 :=
  ⟨by unfold WF; decide, buildDNSAuthorityConfig_refines_spec exDB 1 (by unfold WF; decide)⟩

/-- C1 (failing input): on `bugDB` the Olm `o1`'s client 1 is associated
only with site 1, the DNS-authority site set of resource 2 is `[2]`
(disjoint from it), and yet the sync bootstrap pushes resource 2's zone
to `o1` — the push is not restricted to resources whose authority sites
intersect the client's associated sites. -/
theorem sendDNSAuthorityZones_ignores_association :
    clientAssociatedSiteIds bugDB 1 = [1] ∧
    dnsAuthoritySiteIds bugDB 2 = [2] ∧
    sendDNSAuthorityZonesToOlm bugDB "o1" 1 =
      [Send.mk "o1" "olm/dns/authority/config"
        { action := "update", zones := [ZoneEntry.full bugZone] }] := by
  refine ⟨by decide, by decide, by decide⟩

/-- C7: `updateDNSAuthorityForResource` performs no store writes, so a
second back-to-back invocation on the resulting store sends exactly the
same messages to the same recipients as the first. -/
theorem updateDNSAuthorityForResource_idempotent (db : DB) (resourceId : Nat) :
    (runUpdateDNSAuthorityForResource db resourceId).1 = db ∧
    (runUpdateDNSAuthorityForResource
        (runUpdateDNSAuthorityForResource db resourceId).1 resourceId).2 =
      (runUpdateDNSAuthorityForResource db resourceId).2 :=
  ⟨rfl, rfl⟩

/-- C8: `onHealthCheckUpdate` dispatches exactly one
`updateDNSAuthorityForResource` per distinct resource reachable from the
given targets whose resource has DNS authority enabled, and for no other
resource. -/
theorem onHealthCheckUpdate_once_per_resource (db : DB) (targetIds : List Nat) :
    (onHealthCheckUpdateResourceIds db targetIds).Nodup ∧
    (∀ rid, rid ∈ onHealthCheckUpdateResourceIds db targetIds ↔
      ∃ tid ∈ targetIds, healthTargetResource db tid = some (rid, true)) ∧
    onHealthCheckUpdate db targetIds =
      (onHealthCheckUpdateResourceIds db targetIds).flatMap
        (fun rid => updateDNSAuthorityForResource db rid) := by
  refine ⟨nodup_foldl_hcAccStep db targetIds [] List.nodup_nil, ?_, rfl⟩
  intro rid
  rw [onHealthCheckUpdateResourceIds, mem_foldl_hcAccStep]
  simp

/-- C3: an entry whose parsed target id has no matching row on the
reporter's site (missing target or foreign `siteId`) leaves the store —
in particular the `targetHealthCheck` table — untouched, increments only
the error counter, and the batch loop continues with the remaining
entries from that state. -/
theorem healthcheck_foreign_target_rejected (newtSiteId : Nat) (st : HCState)
    (key status : String) (rest : List (String × String)) (tid : Int)
    (hparse : jsParseInt key = some tid)
    (hmiss : tenancyLookup st.db tid newtSiteId = none) :
    stepHC newtSiteId st (key, status) = { st with errorCount := st.errorCount + 1 } ∧
    processHCEntries newtSiteId st ((key, status) :: rest) =
      processHCEntries newtSiteId { st with errorCount := st.errorCount + 1 } rest := by
  have hstep : stepHC newtSiteId st (key, status) =
      { st with errorCount := st.errorCount + 1 } := by
    unfold stepHC
    rw [hparse]
    simp only [hmiss]
  refine ⟨hstep, ?_⟩
  unfold processHCEntries
  rw [List.foldl_cons, hstep]

/-- C3 witness: on `exDB`, target 12 belongs to site 1, so a Newt bound to
site 2 reporting on it is rejected with one counted error and the batch
continues. -/
theorem healthcheck_foreign_target_rejected_witness :
    stepHC 2 exHCState0 ("12", "unhealthy") =
      { exHCState0 with errorCount := exHCState0.errorCount + 1 } ∧
    processHCEntries 2 exHCState0 (("12", "unhealthy") :: [("99", "healthy")]) =
      processHCEntries 2 { exHCState0 with errorCount := exHCState0.errorCount + 1 }
        [("99", "healthy")] :=
  healthcheck_foreign_target_rejected 2 exHCState0 "12" "unhealthy"
    [("99", "healthy")] 12 (by decide) (by decide)

/-- C9: `parseInt` on a key with an integer prefix followed by trailing
garbage succeeds with the prefix, so the entry is not counted as
malformed — it reaches the tenancy check and can update the health of
the target named by the prefix (shown for `"12abc"` on `exDB`); only a
key with no leading integer is counted as an error at the parse stage. -/
theorem healthcheck_integer_prefix_key_accepted (newtSiteId : Nat) (st : HCState)
    (key status : String) (hnan : jsParseInt key = none) :
    stepHC newtSiteId st (key, status) = { st with errorCount := st.errorCount + 1 } ∧
    jsParseInt "12abc" = some 12 ∧
    stepHC 1 exHCState0 ("12abc", "unhealthy") =
      { exHCState0 with
          db := { exDB with
            targetHealthCheck :=
              [{ targetId := 12, hcEnabled := false, hcHealth := "unhealthy" }] }
          successCount := 1
          updatedTargetIds := [12] } := by
  refine ⟨?_, by decide, by decide⟩
  unfold stepHC
  rw [hnan]

/-- C9 witness: a key with no leading integer is counted as a parse error,
while `"12abc"` parses to 12. -/
theorem healthcheck_integer_prefix_key_accepted_witness :
    stepHC 1 exHCState0 ("abc", "unhealthy") =
      { exHCState0 with errorCount := exHCState0.errorCount + 1 } ∧
    jsParseInt "12abc" = some 12 :=
  ⟨(healthcheck_integer_prefix_key_accepted 1 exHCState0 "abc" "unhealthy" (by decide)).1,
   (healthcheck_integer_prefix_key_accepted 1 exHCState0 "abc" "unhealthy" (by decide)).2.1⟩

/-- C4: the session-validation handler always answers 200 in the model (a
500 would arise only from an internal fault, which the pure embedding
has none of); it answers `{valid: false}` when no truthy token is
extracted, when no unexpired session matches, or when the session's user
is missing, and otherwise `{valid: true}` with the user's id and e-mail
and the session's expiry. -/
theorem validateSession_responses (db : DB) (now : Int) (req : ValidateRequest) :
    (validateSession db now req).status = 200 ∧
    (extractSessionToken req = none → validateSession db now req = invalidSessionResponse) ∧
    (∀ tok, extractSessionToken req = some tok → findValidSession db now tok = none →
      validateSession db now req = invalidSessionResponse) ∧
    (∀ tok sess, extractSessionToken req = some tok →
      findValidSession db now tok = some sess →
      findUser db sess.userId = none →
      validateSession db now req = invalidSessionResponse) ∧
    (∀ tok sess u, extractSessionToken req = some tok →
      findValidSession db now tok = some sess →
      findUser db sess.userId = some u →
      validateSession db now req =
        { status := 200, valid := true, userId := some u.userId,
          email := some u.email, expiresAt := some sess.expiresAt }) := by
  refine ⟨?_, ?_, ?_, ?_, ?_⟩
  · unfold validateSession
    split
    · rfl
    · split
      · rfl
      · split
        · rfl
        · rfl
  · intro h1
    unfold validateSession
    rw [h1]
  · intro tok h1 h2
    unfold validateSession
    rw [h1]
    simp only [h2]
  · intro tok sess h1 h2 h3
    unfold validateSession
    rw [h1]
    simp only [h2, h3]
  · intro tok sess u h1 h2 h3
    unfold validateSession
    rw [h1]
    simp only [h2, h3]

/-- C4 witness: on `exDB` at time 0 the cookie `p_session=abc` validates to
user `u1`, and a wrong cookie yields `{valid: false}` with status 200. -/
theorem validateSession_responses_witness :
    validateSession exDB 0 { cookieToken := some "abc", authHeader := none } =
      { status := 200, valid := true, userId := some "u1",
        email := some "a@x", expiresAt := some 1000 } ∧
    validateSession exDB 0 { cookieToken := some "wrong", authHeader := none } =
      invalidSessionResponse :=
  ⟨(validateSession_responses exDB 0
      { cookieToken := some "abc", authHeader := none }).2.2.2.2 "abc"
      { sessionToken := "abc", userId := "u1", expiresAt := 1000 }
      { userId := "u1", email := "a@x" } (by decide) (by decide) (by decide),
   (validateSession_responses exDB 0
      { cookieToken := some "wrong", authHeader := none }).2.2.1 "wrong"
      (by decide) (by decide)⟩

/-- C5 counterexample: on `cex5DB` site 1 hosts an enabled target of a
protected DNS-authority resource and has a Newt, yet no auth-proxy
message is emitted because `app.dashboard_url` is unset — the bare
"emitted iff protected target exists" equivalence fails. -/
theorem authProxy_emission_iff_counterexample :
    ¬ ((updateAuthProxyForSite cex5DB cex5Cfg 1 ≠ []) ↔
        (protectedResources cex5DB 1 ≠ [])) := by
  decide

/-- C5 (amended): provided the site row and its org row exist, the dashboard
URL is configured, and the site has a Newt with a non-empty id, an
auth-proxy message is emitted for the site iff the site hosts at least
one enabled target of a resource with DNS authority and SSO, blocked
access, or an e-mail whitelist; and with no such target
`buildAuthProxyConfig` is `null` and nothing is sent. -/
theorem authProxy_emission_iff_amended (db : DB) (cfg : AppConfig) (siteId : Nat)
    (site : Site) (n : Newt)
    (hsite : db.sites.find? (fun s => s.siteId == siteId) = some site)
    (horg : (db.orgs.find? (fun o => o.orgId == site.orgId)).isSome = true)
    (hdash : jsTruthyStr cfg.dashboardUrl = true)
    (hnewt : db.newts.find? (fun m => m.siteId == siteId) = some n)
    (hnid : (n.newtId == "") = false) :
    ((updateAuthProxyForSite db cfg siteId ≠ []) ↔ (protectedResources db siteId ≠ [])) ∧
    (protectedResources db siteId = [] →
      buildAuthProxyConfig db cfg siteId = none ∧
      updateAuthProxyForSite db cfg siteId = []) := by
  obtain ⟨org, horg2⟩ := Option.isSome_iff_exists.mp horg
  cases hp : (protectedResources db siteId).isEmpty with
  | true =>
    have hpe : protectedResources db siteId = [] := List.isEmpty_iff.mp hp
    have hbuild : buildAuthProxyConfig db cfg siteId = none := by
      unfold buildAuthProxyConfig
      simp only [hsite, horg2]
      simp [hp]
    have hupd : updateAuthProxyForSite db cfg siteId = [] := by
      unfold updateAuthProxyForSite
      rw [hsite, hnewt]
      simp [hnid, hbuild]
    refine ⟨?_, fun _ => ⟨hbuild, hupd⟩⟩
    constructor
    · intro h
      exact absurd hupd h
    · intro h
      exact absurd hpe h
  | false =>
    have hpe : protectedResources db siteId ≠ [] := by
      intro h
      rw [h] at hp
      exact Bool.noConfusion hp
    have hbuild : ∃ m, buildAuthProxyConfig db cfg siteId = some m := by
      unfold buildAuthProxyConfig
      simp only [hsite, horg2]
      simp [hp, hdash]
    obtain ⟨m, hm⟩ := hbuild
    have hupd : updateAuthProxyForSite db cfg siteId = [(n.newtId, m)] := by
      unfold updateAuthProxyForSite
      rw [hsite, hnewt]
      simp [hnid, hm]
    refine ⟨?_, fun h => absurd h hpe⟩
    constructor
    · intro _
      exact hpe
    · intro _
      rw [hupd]
      simp

/-- C5 witness: on `exDB`, with all side conditions holding, the
equivalence is exercised at site 1. -/
theorem authProxy_emission_iff_amended_witness :
    ((updateAuthProxyForSite exDB exCfg 1 ≠ []) ↔ (protectedResources exDB 1 ≠ [])) ∧
    (protectedResources exDB 1 = [] →
      buildAuthProxyConfig exDB exCfg 1 = none ∧
      updateAuthProxyForSite exDB exCfg 1 = []) :=
  authProxy_emission_iff_amended exDB exCfg 1 exSite1 exNewt1
    (by decide) (by decide) (by decide) (by decide) (by decide)

/-- C6: in every emitted auth-proxy message built from a dashboard URL
whose host parses, `cookieDomain` is `"."` followed by the last two
dot-separated labels of that host when it has at least two labels, and
the bare hostname when it has exactly one. -/
theorem authConfig_cookieDomain_last_two_labels (db : DB) (cfg : AppConfig)
    (siteId : Nat) (m : AuthProxyConfigMessage) (d h : String)
    (hbuild : buildAuthProxyConfig db cfg siteId = some m)
    (hdash : cfg.dashboardUrl = some d)
    (hhost : urlHostname d = some h) :
    m.auth.cookieDomain =
      if (splitDots h).length ≥ 2 then
        "." ++ String.intercalate "." ((splitDots h).drop ((splitDots h).length - 2))
      else h := by
  unfold buildAuthProxyConfig at hbuild
  cases hsite : db.sites.find? (fun s => s.siteId == siteId) with
  | none =>
    rw [hsite] at hbuild
    exact Option.noConfusion hbuild
  | some site =>
    rw [hsite] at hbuild
    simp only [] at hbuild
    cases horg : db.orgs.find? (fun o => o.orgId == site.orgId) with
    | none =>
      rw [horg] at hbuild
      exact Option.noConfusion hbuild
    | some org =>
      rw [horg] at hbuild
      simp only [] at hbuild
      split at hbuild
      · exact Option.noConfusion hbuild
      · split at hbuild
        · exact Option.noConfusion hbuild
        · injection hbuild with hb
          rw [← hb]
          show extractBaseDomain (cfg.dashboardUrl.getD "") = _
          rw [hdash]
          show extractBaseDomain d = _
          unfold extractBaseDomain
          rw [hhost]

/-- C6 witness: the message built for site 1 of `exDB` under the dashboard
URL `https://app.example.com` has cookie domain `".example.com"`. -/
theorem authConfig_cookieDomain_last_two_labels_witness :
    buildAuthProxyConfig exDB exCfg 1 = some exAuthMsg ∧
    exAuthMsg.auth.cookieDomain = ".example.com" :=
  ⟨by decide,
   (authConfig_cookieDomain_last_two_labels exDB exCfg 1 exAuthMsg
      "https://app.example.com" "app.example.com"
      (by decide) (by decide) (by decide)).trans (by decide)⟩

/-- C10: when site, org, dashboard URL and Newt are all present and every
protected resource of the site lacks a (truthy) `fullDomain`,
`buildAuthProxyConfig` still returns a non-null message with an empty
`resources` array, and that message is sent to the site's Newt rather
than suppressed. -/
theorem authProxy_all_domainless_still_sent (db : DB) (cfg : AppConfig)
    (siteId : Nat) (site : Site) (n : Newt)
    (hsite : db.sites.find? (fun s => s.siteId == siteId) = some site)
    (horg : (db.orgs.find? (fun o => o.orgId == site.orgId)).isSome = true)
    (hdash : jsTruthyStr cfg.dashboardUrl = true)
    (hnewt : db.newts.find? (fun m => m.siteId == siteId) = some n)
    (hnid : (n.newtId == "") = false)
    (hprot : (protectedResources db siteId).isEmpty = false)
    (hnofd : ∀ t ∈ protectedResources db siteId, jsTruthyStr t.fullDomain = false) :
    ∃ m, buildAuthProxyConfig db cfg siteId = some m ∧ m.resources = [] ∧
      updateAuthProxyForSite db cfg siteId = [(n.newtId, m)] := by
  obtain ⟨org, horg2⟩ := Option.isSome_iff_exists.mp horg
  have hres : resourceAuthConfigs db (protectedResources db siteId) = [] := by
    unfold resourceAuthConfigs
    rw [List.filterMap_eq_nil_iff]
    intro t ht
    simp [hnofd t ht]
  have hbuild : buildAuthProxyConfig db cfg siteId =
      some { action := "update", auth := authConfigFor cfg, resources := [] } := by
    unfold buildAuthProxyConfig
    simp only [hsite, horg2]
    simp [hprot, hdash, hres]
  refine ⟨{ action := "update", auth := authConfigFor cfg, resources := [] },
    hbuild, rfl, ?_⟩
  unfold updateAuthProxyForSite
  rw [hsite, hnewt]
  simp [hnid, hbuild]

/-- C10 witness: on `noFdDB` (single protected resource without a domain)
the built message has an empty `resources` array and is sent to Newt
`n1`. -/
theorem authProxy_all_domainless_still_sent_witness :
    ∃ m, buildAuthProxyConfig noFdDB exCfg 1 = some m ∧ m.resources = [] ∧
      updateAuthProxyForSite noFdDB exCfg 1 = [(exNewt1.newtId, m)] :=
  authProxy_all_domainless_still_sent noFdDB exCfg 1 exSite1 exNewt1
    (by decide) (by decide) (by decide) (by decide) (by decide) (by decide)
    (by decide)

end Pangolin
